import Mathlib

/-!
Verification of the larnd-sim quenching kernel (`larndsim/quenching.py`).

The kernel `quench` processes an array of track segments.  For each segment it
selects a recombination model (BOX, BIRKS or DATA), computes a survival
fraction `recomb`, checks it for NaN, and writes the output fields
`n_electrons` and `n_photons` (and `pixel_plane` in DATA mode).

Numbers are modelled by `FP`: an IEEE-754-style extended value that is either
a finite real, a signed infinity, or NaN.  Arithmetic on finite values is
exact real arithmetic (rounding and overflow are not modelled); the special
values follow the IEEE rules used by the compiled kernel: division of a
nonzero finite value by zero gives a signed infinity, `0/0` and `inf - inf`
give NaN, the logarithm of a negative value is NaN and of zero is `-inf`,
comparisons involving NaN are false, and `max(0, x)` returns `0` when the
comparison `x > 0` is false (so also for NaN and `-inf`).  Signed zero is not
modelled (zero is treated as `+0`).

The physical constants and the geometry table (`physics.*`, `detector.*`,
`light.*`, `TPC_BORDERS`) are configuration external to the kernel, so they
are parameters gathered in a `Consts` structure; the integer model selectors
`physics.BOX/BIRKS/DATA` are fields of it as well.
-/

/-- An IEEE-style extended value: finite real, a signed infinity, or NaN. -/
inductive FP : Type where
  | nan  : FP
  | pinf : FP
  | ninf : FP
  | fin  : ℝ → FP

namespace FP

/-- IEEE addition (exact on finite values). -/
noncomputable def add : FP → FP → FP
  | nan, _ => nan
  | _, nan => nan
  | pinf, ninf => nan
  | ninf, pinf => nan
  | pinf, _ => pinf
  | _, pinf => pinf
  | ninf, _ => ninf
  | _, ninf => ninf
  | fin a, fin b => fin (a + b)

/-- IEEE negation. -/
noncomputable def neg : FP → FP
  | nan => nan
  | pinf => ninf
  | ninf => pinf
  | fin a => fin (-a)

/-- IEEE subtraction, `a - b = a + (-b)`. -/
noncomputable def sub (a b : FP) : FP := add a (neg b)

open Classical in
/-- IEEE multiplication; `inf * 0` is NaN. -/
noncomputable def mul : FP → FP → FP
  | nan, _ => nan
  | _, nan => nan
  | pinf, pinf => pinf
  | pinf, ninf => ninf
  | ninf, pinf => ninf
  | ninf, ninf => pinf
  | pinf, fin b => if b = 0 then nan else if 0 < b then pinf else ninf
  | fin a, pinf => if a = 0 then nan else if 0 < a then pinf else ninf
  | ninf, fin b => if b = 0 then nan else if 0 < b then ninf else pinf
  | fin a, ninf => if a = 0 then nan else if 0 < a then ninf else pinf
  | fin a, fin b => fin (a * b)

open Classical in
/-- IEEE division; `0/0` and `inf/inf` are NaN, nonzero finite over zero is a
signed infinity (zero is treated as `+0`). -/
noncomputable def div : FP → FP → FP
  | nan, _ => nan
  | _, nan => nan
  | pinf, pinf => nan
  | pinf, ninf => nan
  | ninf, pinf => nan
  | ninf, ninf => nan
  | pinf, fin b => if 0 ≤ b then pinf else ninf
  | ninf, fin b => if 0 ≤ b then ninf else pinf
  | fin _, pinf => fin 0
  | fin _, ninf => fin 0
  | fin a, fin b =>
      if b = 0 then (if a = 0 then nan else if 0 < a then pinf else ninf)
      else fin (a / b)

open Classical in
/-- IEEE natural logarithm: NaN on negative values, `-inf` at zero. -/
noncomputable def log : FP → FP
  | nan => nan
  | pinf => pinf
  | ninf => nan
  | fin a => if a < 0 then nan else if a = 0 then ninf else fin (Real.log a)

/-- IEEE exponential. -/
noncomputable def exp : FP → FP
  | nan => nan
  | pinf => pinf
  | ninf => fin 0
  | fin a => fin (Real.exp a)

/-- IEEE absolute value. -/
noncomputable def abs : FP → FP
  | nan => nan
  | pinf => pinf
  | ninf => pinf
  | fin a => fin |a|

/-- Python `max(0, x)`: keeps `0` unless `x > 0` compares true, so NaN and
`-inf` are mapped to `0`. -/
noncomputable def max0 : FP → FP
  | pinf => pinf
  | fin a => fin (max 0 a)
  | _ => fin 0

/-- NaN test (`math.isnan`). -/
def isNaN : FP → Bool
  | nan => true
  | _ => false

/-- IEEE `≤` as a proposition: any comparison involving NaN is false. -/
def le : FP → FP → Prop
  | nan, _ => False
  | _, nan => False
  | ninf, _ => True
  | _, pinf => True
  | pinf, _ => False
  | _, ninf => False
  | fin a, fin b => a ≤ b

/-- IEEE `<` as a proposition: any comparison involving NaN is false. -/
def lt : FP → FP → Prop
  | nan, _ => False
  | _, nan => False
  | _, ninf => False
  | ninf, _ => True
  | pinf, _ => False
  | _, pinf => True
  | fin a, fin b => a < b

end FP

noncomputable instance : Add FP := ⟨FP.add⟩
noncomputable instance : Neg FP := ⟨FP.neg⟩
noncomputable instance : Sub FP := ⟨FP.sub⟩
noncomputable instance : Mul FP := ⟨FP.mul⟩
noncomputable instance : Div FP := ⟨FP.div⟩
instance : LE FP := ⟨FP.le⟩
instance : LT FP := ⟨FP.lt⟩

/-- One entry of the `TPC_BORDERS` geometry table:
`[[x0,x1],[y0,y1],[z0,z1]]` (the two z-values may come in either order). -/
structure Plane where
  x0 : ℝ
  x1 : ℝ
  y0 : ℝ
  y1 : ℝ
  z0 : ℝ
  z1 : ℝ

/-- One track-segment record of the `tracks` array, with its input fields and
the fields written by the kernel. -/
structure Segment where
  dEdx : FP
  dE : FP
  x : FP
  y : FP
  z : FP
  pixel_plane : ℤ
  n_electrons : FP
  n_photons : FP

/-- The external configuration read by the kernel: the integer model
selectors and the physical constants from `physics`, `detector` and `light`,
plus the `TPC_BORDERS` geometry table. -/
structure Consts where
  BOX : ℤ
  BIRKS : ℤ
  DATA : ℤ
  BOX_ALPHA : ℝ
  BOX_BETA : ℝ
  BIRKS_Ab : ℝ
  BIRKS_kb : ℝ
  E_FIELD : ℝ
  LAR_DENSITY : ℝ
  V_DRIFT : ℝ
  ELECTRON_LIFETIME : ℝ
  W_ION : ℝ
  W_PH : ℝ
  SCINT_PRESCALE : ℝ
  DEFAULT_PLANE_INDEX : ℤ
  TPC_BORDERS : List Plane

/-- The two fatal error conditions of the kernel (§7 of the design):
an unrecognized model selector, and a NaN recombination value. -/
inductive QuenchError : Type where
  | InvalidModelSelector : QuenchError
  | InvalidRecombinationValue : QuenchError

/-- The padded containment test of the DATA branch:
`plane[0][0]-2e-2 <= x <= plane[0][1]+2e-2` and likewise for `y`, and for `z`
the bounds `min(plane[2][1]-2e-2, plane[2][0]-2e-2)` and
`max(plane[2][1]+2e-2, plane[2][0]+2e-2)`. -/
def planeMatch (p : Plane) (x y z : FP) : Prop :=
  (FP.fin (p.x0 - 0.02) ≤ x ∧ x ≤ FP.fin (p.x1 + 0.02)) ∧
  (FP.fin (p.y0 - 0.02) ≤ y ∧ y ≤ FP.fin (p.y1 + 0.02)) ∧
  (FP.fin (min (p.z1 - 0.02) (p.z0 - 0.02)) ≤ z ∧
    z ≤ FP.fin (max (p.z1 + 0.02) (p.z0 + 0.02)))

open Classical in
/-- The `for ip, plane in enumerate(TPC_BORDERS) ... break` scan: returns the
first plane (with its index, counting from `n`) whose padded box contains the
point, or `none`. -/
noncomputable def findPlaneAux (x y z : FP) : List Plane → ℕ → Option (ℕ × Plane)
  | [], _ => none
  | p :: rest, n =>
      if planeMatch p x y z then some (n, p) else findPlaneAux x y z rest (n + 1)

/-- The Box-model branch (Baller, 2013 JINST 8 P08005):
`csi = BOX_BETA * dEdx / (E_FIELD * LAR_DENSITY)`,
`recomb = max(0, log(BOX_ALPHA + csi)/csi)`. -/
noncomputable def boxRecomb (c : Consts) (dEdx : FP) : FP :=
  let csi := FP.fin c.BOX_BETA * dEdx / FP.fin (c.E_FIELD * c.LAR_DENSITY)
  ((FP.fin c.BOX_ALPHA + csi).log / csi).max0

/-- The Birks-model branch (Amoruso, et al NIM A 523 (2004) 275):
`recomb = BIRKS_Ab / (1 + BIRKS_kb * dEdx / (E_FIELD * LAR_DENSITY))`. -/
noncomputable def birksRecomb (c : Consts) (dEdx : FP) : FP :=
  FP.fin c.BIRKS_Ab /
    (FP.fin 1 + FP.fin c.BIRKS_kb * dEdx / FP.fin (c.E_FIELD * c.LAR_DENSITY))

/-- The DATA branch: the plane scan and the drift-attenuation computation.
Returns the `pixel_plane` value to be written and the resulting `recomb`
(`0`, the initial value, if no plane matched or the matched index equals
`DEFAULT_PLANE_INDEX`; otherwise
`exp(abs(z - z_anode) / V_DRIFT / ELECTRON_LIFETIME)` with
`z_anode = TPC_BORDERS[pixel_plane][2][0]`). -/
noncomputable def dataScan (c : Consts) (s : Segment) : ℤ × FP :=
  match findPlaneAux s.x s.y s.z c.TPC_BORDERS 0 with
  | none => (c.DEFAULT_PLANE_INDEX, FP.fin 0)
  | some (i, p) =>
      if (i : ℤ) = c.DEFAULT_PLANE_INDEX then ((i : ℤ), FP.fin 0)
      else ((i : ℤ),
        FP.exp ((s.z - FP.fin p.z0).abs / FP.fin c.V_DRIFT /
          FP.fin c.ELECTRON_LIFETIME))

/-- The unconditional tail of the kernel: the `isnan` check followed by
`n_electrons = recomb * dE / W_ION` and
`n_photons = (dE / W_PH - n_electrons) * SCINT_PRESCALE`. -/
noncomputable def writeOut (c : Consts) (s : Segment) (dE recomb : FP) :
    Except QuenchError Segment :=
  if recomb.isNaN then Except.error QuenchError.InvalidRecombinationValue
  else
    let ne := recomb * dE / FP.fin c.W_ION
    Except.ok { s with
      n_electrons := ne,
      n_photons := (dE / FP.fin c.W_PH - ne) * FP.fin c.SCINT_PRESCALE }

/-- One kernel invocation on one segment: the branch select over `mode`
(`BOX`, then `BIRKS`, then `DATA`, in the order of the source), the fatal
`ValueError` for any other selector, and the common tail `writeOut`. -/
noncomputable def quenchStep (c : Consts) (mode : ℤ) (s : Segment) :
    Except QuenchError Segment :=
  if mode = c.BOX then
    writeOut c s s.dE (boxRecomb c s.dEdx)
  else if mode = c.BIRKS then
    writeOut c s s.dE (birksRecomb c s.dEdx)
  else if mode = c.DATA then
    writeOut c { s with pixel_plane := (dataScan c s).1 } s.dE (dataScan c s).2
  else Except.error QuenchError.InvalidModelSelector

/-- The recombination value produced by the branch `quenchStep` selects for
`mode` (meaningful when `mode` is one of the three selectors). -/
noncomputable def modelRecomb (c : Consts) (mode : ℤ) (s : Segment) : FP :=
  if mode = c.BOX then boxRecomb c s.dEdx
  else if mode = c.BIRKS then birksRecomb c s.dEdx
  else (dataScan c s).2

/-- The whole-batch kernel: every segment is processed; a fatal condition on
any segment aborts the batch with no result array. -/
noncomputable def quench (c : Consts) (mode : ℤ) :
    List Segment → Except QuenchError (List Segment)
  | [] => Except.ok []
  | s :: rest => do
      let s' ← quenchStep c mode s
      let rest' ← quench c mode rest
      pure (s' :: rest')

/-- A single kernel lane: the invocation with `cuda.grid(1) = i`.  It mutates
only `tracks[i]` (and does nothing when `i` is out of range, as the guard
`itrk < tracks.shape[0]` does). -/
noncomputable def quenchAt (c : Consts) (mode : ℤ) (tracks : List Segment)
    (i : ℕ) : Except QuenchError (List Segment) :=
  match tracks.get? i with
  | none => Except.ok tracks
  | some s => Except.map (fun s' => tracks.set i s') (quenchStep c mode s)

/-- A concrete configuration (unit constants, selectors 1/2/3, empty
geometry table) used in the concrete evaluations below. -/
noncomputable def cW : Consts where
  BOX := 1
  BIRKS := 2
  DATA := 3
  BOX_ALPHA := 1/2
  BOX_BETA := 1
  BIRKS_Ab := 1
  BIRKS_kb := 1
  E_FIELD := 1
  LAR_DENSITY := 1
  V_DRIFT := 1
  ELECTRON_LIFETIME := 1
  W_ION := 1
  W_PH := 1
  SCINT_PRESCALE := 1
  DEFAULT_PLANE_INDEX := -1
  TPC_BORDERS := []

/-- A concrete plane entry `[[-1,1],[-1,1],[0,1]]`. -/
def pW : Plane where
  x0 := -1
  x1 := 1
  y0 := -1
  y1 := 1
  z0 := 0
  z1 := 1

/-- The configuration `cW` with a geometry table of two identical
(hence overlapping) plane entries. -/
noncomputable def cData : Consts := { cW with TPC_BORDERS := [pW, pW] }

/-- A concrete segment at the origin with `dEdx = dE = 1`. -/
noncomputable def sW : Segment where
  dEdx := FP.fin 1
  dE := FP.fin 1
  x := FP.fin 0
  y := FP.fin 0
  z := FP.fin 0
  pixel_plane := 0
  n_electrons := FP.fin 0
  n_photons := FP.fin 0

/-- The segment `sW` with a NaN `dEdx`. -/
noncomputable def sNan : Segment := { sW with dEdx := FP.nan }

/-- The segment `sW` with `dEdx = 0`. -/
noncomputable def sZero : Segment := { sW with dEdx := FP.fin 0 }

/-- The result of the kernel on `sW` in BIRKS mode under `cW`. -/
noncomputable def outW : Segment :=
  { sW with n_electrons := FP.fin (1/2), n_photons := FP.fin (1/2) }

/-- The result of the kernel on `sZero` in BOX mode under `cW`. -/
noncomputable def outZero : Segment :=
  { sZero with n_electrons := FP.fin 0, n_photons := FP.fin 1 }

/-- The result of the kernel on `sW` in DATA mode under `cData`. -/
noncomputable def outD : Segment :=
  { sW with pixel_plane := 0, n_electrons := FP.fin 1, n_photons := FP.fin 0 }

/-- The real-number value of `csi` in the Box branch. -/
noncomputable def csiR (c : Consts) (d : ℝ) : ℝ :=
  c.BOX_BETA * d / (c.E_FIELD * c.LAR_DENSITY)

/-! ### Basic facts about the `FP` operations -/

@[simp] theorem FP.fin_le_fin {a b : ℝ} : FP.fin a ≤ FP.fin b ↔ a ≤ b := Iff.rfl

@[simp] theorem FP.fin_lt_fin {a b : ℝ} : FP.fin a < FP.fin b ↔ a < b := Iff.rfl

@[simp] theorem FP.not_pinf_le_fin {b : ℝ} : ¬ (FP.pinf ≤ FP.fin b) := id

@[simp] theorem FP.not_fin_le_ninf {a : ℝ} : ¬ (FP.fin a ≤ FP.ninf) := id

@[simp] theorem FP.not_nan_le {w : FP} : ¬ (FP.nan ≤ w) := by cases w <;> exact id

@[simp] theorem FP.not_le_nan {w : FP} : ¬ (w ≤ FP.nan) := by cases w <;> exact id

@[simp] theorem FP.fin_add_fin {a b : ℝ} :
    FP.fin a + FP.fin b = FP.fin (a + b) := rfl

@[simp] theorem FP.neg_fin {a : ℝ} : -FP.fin a = FP.fin (-a) := rfl

@[simp] theorem FP.fin_sub_fin {a b : ℝ} :
    FP.fin a - FP.fin b = FP.fin (a - b) := by
  show FP.fin (a + -b) = FP.fin (a - b)
  rw [← sub_eq_add_neg]

@[simp] theorem FP.fin_mul_fin {a b : ℝ} :
    FP.fin a * FP.fin b = FP.fin (a * b) := rfl

theorem FP.fin_div_def {a b : ℝ} :
    FP.fin a / FP.fin b =
      if b = 0 then (if a = 0 then FP.nan else if 0 < a then FP.pinf else FP.ninf)
      else FP.fin (a / b) := rfl

theorem FP.fin_div_fin {a b : ℝ} (hb : b ≠ 0) :
    FP.fin a / FP.fin b = FP.fin (a / b) := by
  rw [FP.fin_div_def, if_neg hb]

theorem FP.fin_div_zero_neg {a : ℝ} (ha : a < 0) :
    FP.fin a / FP.fin 0 = FP.ninf := by
  rw [FP.fin_div_def, if_pos rfl, if_neg (ne_of_lt ha), if_neg (not_lt.mpr ha.le)]

@[simp] theorem FP.nan_mul {w : FP} : FP.nan * w = FP.nan := by cases w <;> rfl

@[simp] theorem FP.mul_nan {w : FP} : w * FP.nan = FP.nan := by cases w <;> rfl

@[simp] theorem FP.nan_div {w : FP} : FP.nan / w = FP.nan := by cases w <;> rfl

@[simp] theorem FP.div_nan {w : FP} : w / FP.nan = FP.nan := by cases w <;> rfl

@[simp] theorem FP.fin_add_nan : ∀ {w : FP}, w + FP.nan = FP.nan := by
  intro w; cases w <;> rfl

@[simp] theorem FP.nan_add {w : FP} : FP.nan + w = FP.nan := by cases w <;> rfl

theorem FP.ninf_div_fin {b : ℝ} (hb : 0 ≤ b) :
    FP.ninf / FP.fin b = FP.ninf := by
  show (if 0 ≤ b then FP.ninf else FP.pinf) = FP.ninf
  rw [if_pos hb]

theorem FP.log_fin_pos {a : ℝ} (ha : 0 < a) :
    (FP.fin a).log = FP.fin (Real.log a) := by
  show (if a < 0 then FP.nan else if a = 0 then FP.ninf else FP.fin (Real.log a)) = _
  rw [if_neg (not_lt.mpr ha.le), if_neg (ne_of_gt ha)]

theorem FP.log_fin_zero : (FP.fin 0).log = FP.ninf := by
  show (if (0:ℝ) < 0 then FP.nan else if (0:ℝ) = 0 then FP.ninf else FP.fin (Real.log 0)) = _
  rw [if_neg (lt_irrefl 0), if_pos rfl]

theorem FP.log_fin_neg {a : ℝ} (ha : a < 0) : (FP.fin a).log = FP.nan := by
  show (if a < 0 then FP.nan else if a = 0 then FP.ninf else FP.fin (Real.log a)) = _
  rw [if_pos ha]

@[simp] theorem FP.log_nan : FP.nan.log = FP.nan := rfl

@[simp] theorem FP.exp_fin {a : ℝ} : (FP.fin a).exp = FP.fin (Real.exp a) := rfl

@[simp] theorem FP.abs_fin {a : ℝ} : (FP.fin a).abs = FP.fin |a| := rfl

@[simp] theorem FP.max0_fin {a : ℝ} : (FP.fin a).max0 = FP.fin (max 0 a) := rfl

@[simp] theorem FP.max0_ninf : FP.ninf.max0 = FP.fin 0 := rfl

@[simp] theorem FP.max0_nan : FP.nan.max0 = FP.fin 0 := rfl

@[simp] theorem FP.isNaN_fin {a : ℝ} : (FP.fin a).isNaN = false := rfl

@[simp] theorem FP.isNaN_pinf : FP.pinf.isNaN = false := rfl

@[simp] theorem FP.isNaN_ninf : FP.ninf.isNaN = false := rfl

@[simp] theorem FP.isNaN_nan : FP.nan.isNaN = true := rfl

/-! ### Structural lemmas about the kernel -/

theorem writeOut_eq_ok {c : Consts} {t : Segment} {dE r : FP} {t' : Segment} :
    writeOut c t dE r = Except.ok t' ↔
      r.isNaN = false ∧
      t' = { t with
        n_electrons := r * dE / FP.fin c.W_ION,
        n_photons := (dE / FP.fin c.W_PH - r * dE / FP.fin c.W_ION) *
          FP.fin c.SCINT_PRESCALE } := by
  unfold writeOut
  cases h : r.isNaN <;> simp [h, eq_comm]

theorem writeOut_nan {c : Consts} {t : Segment} {dE r : FP}
    (h : r.isNaN = true) :
    writeOut c t dE r = Except.error QuenchError.InvalidRecombinationValue := by
  unfold writeOut
  rw [h]
  rfl

theorem quenchStep_box {c : Consts} {mode : ℤ} {s : Segment}
    (h : mode = c.BOX) :
    quenchStep c mode s = writeOut c s s.dE (boxRecomb c s.dEdx) := by
  unfold quenchStep
  rw [if_pos h]

theorem quenchStep_birks {c : Consts} {mode : ℤ} {s : Segment}
    (h0 : mode ≠ c.BOX) (h : mode = c.BIRKS) :
    quenchStep c mode s = writeOut c s s.dE (birksRecomb c s.dEdx) := by
  unfold quenchStep
  rw [if_neg h0, if_pos h]

theorem quenchStep_data {c : Consts} {mode : ℤ} {s : Segment}
    (h0 : mode ≠ c.BOX) (h1 : mode ≠ c.BIRKS) (h : mode = c.DATA) :
    quenchStep c mode s =
      writeOut c { s with pixel_plane := (dataScan c s).1 } s.dE
        (dataScan c s).2 := by
  unfold quenchStep
  rw [if_neg h0, if_neg h1, if_pos h]

theorem quenchStep_invalid {c : Consts} {mode : ℤ} {s : Segment}
    (h0 : mode ≠ c.BOX) (h1 : mode ≠ c.BIRKS) (h2 : mode ≠ c.DATA) :
    quenchStep c mode s = Except.error QuenchError.InvalidModelSelector := by
  unfold quenchStep
  rw [if_neg h0, if_neg h1, if_neg h2]

theorem findPlaneAux_cons_pos {x y z : FP} {p : Plane} {rest : List Plane}
    {n : ℕ} (hm : planeMatch p x y z) :
    findPlaneAux x y z (p :: rest) n = some (n, p) := by
  classical
  show (if planeMatch p x y z then some (n, p)
    else findPlaneAux x y z rest (n + 1)) = _
  rw [if_pos hm]

theorem findPlaneAux_cons_neg {x y z : FP} {p : Plane} {rest : List Plane}
    {n : ℕ} (hm : ¬ planeMatch p x y z) :
    findPlaneAux x y z (p :: rest) n = findPlaneAux x y z rest (n + 1) := by
  classical
  show (if planeMatch p x y z then some (n, p)
    else findPlaneAux x y z rest (n + 1)) = _
  rw [if_neg hm]

theorem findPlaneAux_nil {x y z : FP} {n : ℕ} :
    findPlaneAux x y z [] n = none := rfl

theorem findPlaneAux_spec {x y z : FP} :
    ∀ (L : List Plane) (n i : ℕ) (p : Plane),
      findPlaneAux x y z L n = some (i, p) →
      n ≤ i ∧ L.get? (i - n) = some p ∧ planeMatch p x y z ∧
        ∀ k q, k < i - n → L.get? k = some q → ¬ planeMatch q x y z := by
  intro L
  induction L with
  | nil => intro n i p h; rw [findPlaneAux_nil] at h; exact absurd h (by simp)
  | cons hd tl ih =>
    intro n i p h
    by_cases hm : planeMatch hd x y z
    · rw [findPlaneAux_cons_pos hm] at h
      obtain ⟨rfl, rfl⟩ : n = i ∧ hd = p := by
        constructor <;> [exact congrArg Prod.fst (Option.some.inj h);
          exact congrArg Prod.snd (Option.some.inj h)]
      refine ⟨le_refl n, by simp, hm, ?_⟩
      intro k q hk
      omega
    · rw [findPlaneAux_cons_neg hm] at h
      obtain ⟨h1, h2, h3, h4⟩ := ih (n + 1) i p h
      refine ⟨by omega, ?_, h3, ?_⟩
      · have : i - n = (i - (n + 1)) + 1 := by omega
        rw [this]
        simpa using h2
      · intro k q hk hq
        match k with
        | 0 =>
          simp only [List.get?_cons_zero, Option.some.injEq] at hq
          rw [← hq]; exact hm
        | Nat.succ j =>
          apply h4 j q (by omega)
          simpa using hq

theorem findPlaneAux_eq_none {x y z : FP} :
    ∀ (L : List Plane) (n : ℕ),
      findPlaneAux x y z L n = none ↔ ∀ p ∈ L, ¬ planeMatch p x y z := by
  intro L
  induction L with
  | nil => intro n; simp [findPlaneAux_nil]
  | cons hd tl ih =>
    intro n
    by_cases hm : planeMatch hd x y z
    · rw [findPlaneAux_cons_pos hm]
      simp [hm]
    · rw [findPlaneAux_cons_neg hm]
      rw [ih (n + 1)]
      simp [hm]

theorem birksRecomb_fin {c : Consts} {d : ℝ}
    (hE : c.E_FIELD * c.LAR_DENSITY ≠ 0)
    (hden : 1 + c.BIRKS_kb * d / (c.E_FIELD * c.LAR_DENSITY) ≠ 0) :
    birksRecomb c (FP.fin d) =
      FP.fin (c.BIRKS_Ab / (1 + c.BIRKS_kb * d / (c.E_FIELD * c.LAR_DENSITY))) := by
  unfold birksRecomb
  rw [FP.fin_mul_fin, FP.fin_div_fin hE, FP.fin_add_fin, FP.fin_div_fin hden]

theorem quenchStep_cW_birks : quenchStep cW 2 sW = Except.ok outW := by
  have hB : (2:ℤ) ≠ cW.BOX := by norm_num [cW]
  have hK : (2:ℤ) = cW.BIRKS := by norm_num [cW]
  rw [quenchStep_birks hB hK]
  have hdEdx : sW.dEdx = FP.fin 1 := rfl
  have hr : birksRecomb cW sW.dEdx = FP.fin (1/2) := by
    rw [hdEdx, birksRecomb_fin (by norm_num [cW]) (by norm_num [cW])]
    norm_num [cW]
  rw [hr, writeOut_eq_ok]
  refine ⟨rfl, ?_⟩
  simp only [outW, sW, cW]
  norm_num [FP.fin_div_fin, FP.fin_mul_fin, FP.fin_sub_fin, Segment.mk.injEq]

/-! ### The claims -/

/-- Claim C1: for every segment that completes without a fatal error, under
every mode (BOX, BIRKS and DATA, including the DATA no-plane fall-through),
the kernel finishes by setting `n_electrons = recomb * dE / W_ION` and
`n_photons = (dE / W_PH - n_electrons) * SCINT_PRESCALE`, where `recomb` is
the value produced by the selected model branch (`modelRecomb`). -/
theorem quench_final_formulas (c : Consts) (mode : ℤ) (s s' : Segment)
    (h : quenchStep c mode s = Except.ok s') :
    s'.n_electrons = modelRecomb c mode s * s.dE / FP.fin c.W_ION ∧
    s'.n_photons =
      (s.dE / FP.fin c.W_PH - s'.n_electrons) * FP.fin c.SCINT_PRESCALE := by
  by_cases h0 : mode = c.BOX
  · rw [quenchStep_box h0, writeOut_eq_ok] at h
    obtain ⟨-, rfl⟩ := h
    unfold modelRecomb
    rw [if_pos h0]
    exact ⟨rfl, rfl⟩
  · by_cases h1 : mode = c.BIRKS
    · rw [quenchStep_birks h0 h1, writeOut_eq_ok] at h
      obtain ⟨-, rfl⟩ := h
      unfold modelRecomb
      rw [if_neg h0, if_pos h1]
      exact ⟨rfl, rfl⟩
    · by_cases h2 : mode = c.DATA
      · rw [quenchStep_data h0 h1 h2, writeOut_eq_ok] at h
        obtain ⟨-, rfl⟩ := h
        unfold modelRecomb
        rw [if_neg h0, if_neg h1]
        exact ⟨rfl, rfl⟩
      · rw [quenchStep_invalid h0 h1 h2] at h
        exact absurd h (by simp)

/-- Witness for C1: the concrete BIRKS evaluation `quenchStep cW 2 sW`
succeeds and the final formulas hold for it. -/
theorem quench_final_formulas_witness :
    quenchStep cW 2 sW = Except.ok outW ∧
    outW.n_electrons = modelRecomb cW 2 sW * sW.dE / FP.fin cW.W_ION ∧
    outW.n_photons =
      (sW.dE / FP.fin cW.W_PH - outW.n_electrons) * FP.fin cW.SCINT_PRESCALE := by
  have h : quenchStep cW 2 sW = Except.ok outW := quenchStep_cW_birks
  exact ⟨h, quench_final_formulas cW 2 sW outW h⟩

theorem boxRecomb_csi {c : Consts} {d : ℝ}
    (hE : c.E_FIELD * c.LAR_DENSITY ≠ 0) :
    boxRecomb c (FP.fin d) =
      ((FP.fin c.BOX_ALPHA + FP.fin (csiR c d)).log / FP.fin (csiR c d)).max0 := by
  unfold boxRecomb csiR
  rw [FP.fin_mul_fin, FP.fin_div_fin hE]

/-- Claim C2: in BOX mode with `csi = BOX_BETA * dEdx / (E_FIELD * LAR_DENSITY)`
positive, the branch computes `recomb = max(0, ln(BOX_ALPHA + csi)/csi)` (the
formula read over the reals, on the domain of the logarithm); consequently
`recomb > 0` when `BOX_ALPHA + csi > 1`, and `recomb = 0` when
`BOX_ALPHA + csi ≤ 1`. -/
theorem boxRecomb_spec (c : Consts) (d : ℝ) (hcsi : 0 < csiR c d) :
    (0 ≤ c.BOX_ALPHA + csiR c d →
      boxRecomb c (FP.fin d) =
        FP.fin (max 0 (Real.log (c.BOX_ALPHA + csiR c d) / csiR c d))) ∧
    (1 < c.BOX_ALPHA + csiR c d → FP.fin 0 < boxRecomb c (FP.fin d)) ∧
    (c.BOX_ALPHA + csiR c d ≤ 1 → boxRecomb c (FP.fin d) = FP.fin 0) := by
  have hE : c.E_FIELD * c.LAR_DENSITY ≠ 0 := by
    intro h
    rw [csiR, h, div_zero] at hcsi
    exact lt_irrefl 0 hcsi
  have hbox := boxRecomb_csi (c := c) (d := d) hE
  set t := c.BOX_ALPHA + csiR c d with ht
  refine ⟨?_, ?_, ?_⟩
  · intro h0
    rcases eq_or_lt_of_le h0 with heq | hpos
    · rw [hbox, FP.fin_add_fin, ← ht, ← heq, FP.log_fin_zero,
        FP.ninf_div_fin hcsi.le, FP.max0_ninf]
      norm_num [Real.log_zero]
    · rw [hbox, FP.fin_add_fin, ← ht, FP.log_fin_pos hpos,
        FP.fin_div_fin (ne_of_gt hcsi), FP.max0_fin]
  · intro h1
    have hpos : 0 < t := lt_trans zero_lt_one h1
    rw [hbox, FP.fin_add_fin, ← ht, FP.log_fin_pos hpos,
      FP.fin_div_fin (ne_of_gt hcsi), FP.max0_fin, FP.fin_lt_fin]
    exact lt_max_iff.mpr (Or.inr (div_pos (Real.log_pos h1) hcsi))
  · intro hle
    rcases lt_trichotomy t 0 with hneg | hzero | hpos
    · rw [hbox, FP.fin_add_fin, ← ht, FP.log_fin_neg hneg, FP.nan_div,
        FP.max0_nan]
    · rw [hbox, FP.fin_add_fin, ← ht, hzero, FP.log_fin_zero,
        FP.ninf_div_fin hcsi.le, FP.max0_ninf]
    · rw [hbox, FP.fin_add_fin, ← ht, FP.log_fin_pos hpos,
        FP.fin_div_fin (ne_of_gt hcsi), FP.max0_fin, FP.fin.injEq]
      exact max_eq_left
        (div_nonpos_of_nonpos_of_nonneg (Real.log_nonpos hpos.le hle) hcsi.le)

/-- Witness for C2 at `c = cW`, `dEdx = 1` (so `csi = 1 > 0`). -/
theorem boxRecomb_spec_witness :
    0 < csiR cW 1 ∧
    ((0 ≤ cW.BOX_ALPHA + csiR cW 1 →
      boxRecomb cW (FP.fin 1) =
        FP.fin (max 0 (Real.log (cW.BOX_ALPHA + csiR cW 1) / csiR cW 1))) ∧
    (1 < cW.BOX_ALPHA + csiR cW 1 → FP.fin 0 < boxRecomb cW (FP.fin 1)) ∧
    (cW.BOX_ALPHA + csiR cW 1 ≤ 1 → boxRecomb cW (FP.fin 1) = FP.fin 0)) := by
  have h : 0 < csiR cW 1 := by norm_num [csiR, cW]
  exact ⟨h, boxRecomb_spec cW 1 h⟩

/-- Claim C3: in BIRKS mode with finite `dEdx ≥ 0` and positive physical
constants, the branch computes
`recomb = BIRKS_Ab / (1 + BIRKS_kb * dEdx / (E_FIELD * LAR_DENSITY))` and
this value satisfies `0 ≤ recomb ≤ BIRKS_Ab`. -/
theorem birksRecomb_spec (c : Consts) (d : ℝ) (hd : 0 ≤ d)
    (hAb : 0 < c.BIRKS_Ab) (hkb : 0 < c.BIRKS_kb)
    (hE : 0 < c.E_FIELD) (hrho : 0 < c.LAR_DENSITY) :
    birksRecomb c (FP.fin d) =
      FP.fin (c.BIRKS_Ab / (1 + c.BIRKS_kb * d / (c.E_FIELD * c.LAR_DENSITY))) ∧
    FP.fin 0 ≤ birksRecomb c (FP.fin d) ∧
    birksRecomb c (FP.fin d) ≤ FP.fin c.BIRKS_Ab := by
  have hEr : 0 < c.E_FIELD * c.LAR_DENSITY := mul_pos hE hrho
  have hq : 0 ≤ c.BIRKS_kb * d / (c.E_FIELD * c.LAR_DENSITY) :=
    div_nonneg (mul_nonneg hkb.le hd) hEr.le
  have hden : 0 < 1 + c.BIRKS_kb * d / (c.E_FIELD * c.LAR_DENSITY) := by linarith
  have heq := birksRecomb_fin (c := c) (d := d) (ne_of_gt hEr) (ne_of_gt hden)
  refine ⟨heq, ?_, ?_⟩
  · rw [heq, FP.fin_le_fin]
    exact div_nonneg hAb.le hden.le
  · rw [heq, FP.fin_le_fin]
    exact div_le_self hAb.le (by linarith)

/-- Witness for C3 at `c = cW`, `dEdx = 1`. -/
theorem birksRecomb_spec_witness :
    (0:ℝ) ≤ 1 ∧ 0 < cW.BIRKS_Ab ∧ 0 < cW.E_FIELD ∧
    (FP.fin 0 ≤ birksRecomb cW (FP.fin 1) ∧
      birksRecomb cW (FP.fin 1) ≤ FP.fin cW.BIRKS_Ab) := by
  have h := birksRecomb_spec cW 1 (by norm_num) (by norm_num [cW])
    (by norm_num [cW]) (by norm_num [cW]) (by norm_num [cW])
  exact ⟨by norm_num, by norm_num [cW], by norm_num [cW], h.2⟩

/-- Claim C7: for every `mode` outside `{BOX, BIRKS, DATA}` the kernel raises
the invalid-model-selector error for the whole (nonempty) batch: the result
is the error, with no output array at all. -/
theorem quench_invalid_mode (c : Consts) (mode : ℤ)
    (h0 : mode ≠ c.BOX) (h1 : mode ≠ c.BIRKS) (h2 : mode ≠ c.DATA)
    (tracks : List Segment) (hne : tracks ≠ []) :
    quench c mode tracks = Except.error QuenchError.InvalidModelSelector := by
  cases tracks with
  | nil => exact absurd rfl hne
  | cons s rest =>
    have hstep : quench c mode (s :: rest) =
        (quenchStep c mode s).bind (fun s' =>
          (quench c mode rest).bind (fun rest' => pure (s' :: rest'))) := rfl
    rw [hstep, quenchStep_invalid h0 h1 h2]
    rfl

/-- Witness for C7: selector `0` (none of `1`, `2`, `3`) on a one-segment
batch aborts with `InvalidModelSelector`. -/
theorem quench_invalid_mode_witness :
    (0:ℤ) ≠ cW.BOX ∧ (0:ℤ) ≠ cW.BIRKS ∧ (0:ℤ) ≠ cW.DATA ∧
    quench cW 0 [sW] = Except.error QuenchError.InvalidModelSelector := by
  refine ⟨by norm_num [cW], by norm_num [cW], by norm_num [cW], ?_⟩
  exact quench_invalid_mode cW 0 (by norm_num [cW]) (by norm_num [cW])
    (by norm_num [cW]) [sW] (by simp)

/-- Counterexample to Claim C8 as stated: a segment with `dEdx = 0` under
BOX mode does not produce a NaN recombination value and does not raise.  With
`csi = 0` the branch computes `log(BOX_ALPHA)/0 = -inf` (for
`0 < BOX_ALPHA < 1`), and `max(0, -inf) = 0`, so the kernel completes
normally with `recomb = 0`. -/
theorem box_zero_dEdx_no_error : quenchStep cW 1 sZero = Except.ok outZero := by
  rw [quenchStep_box (by norm_num [cW] : (1:ℤ) = cW.BOX)]
  have hr : boxRecomb cW sZero.dEdx = FP.fin 0 := by
    have h1 : sZero.dEdx = FP.fin 0 := rfl
    rw [h1, boxRecomb_csi (by norm_num [cW])]
    have h2 : csiR cW 0 = 0 := by norm_num [csiR, cW]
    rw [h2, FP.fin_add_fin]
    have h3 : cW.BOX_ALPHA + 0 = (1/2 : ℝ) := by norm_num [cW]
    rw [h3, FP.log_fin_pos (by norm_num),
      FP.fin_div_zero_neg (Real.log_neg (by norm_num) (by norm_num)),
      FP.max0_ninf]
  rw [hr, writeOut_eq_ok]
  refine ⟨rfl, ?_⟩
  simp only [outZero, sZero, sW, cW]
  norm_num [FP.fin_div_fin, FP.fin_mul_fin, FP.fin_sub_fin, Segment.mk.injEq]

/-- Claim C8 (amended): whenever the selected model branch produces a NaN
recombination value (for instance `dEdx = NaN` under BIRKS — but not
`dEdx = 0` under BOX, which yields `recomb = 0`), the kernel raises the fatal
invalid-recombination-value error for that batch, before writing
`n_electrons` or `n_photons` for the segment. -/
theorem quenchStep_nan_recomb_error (c : Consts) (mode : ℤ) (s : Segment)
    (hm : mode = c.BOX ∨ mode = c.BIRKS ∨ mode = c.DATA)
    (h : (modelRecomb c mode s).isNaN = true) :
    quenchStep c mode s = Except.error QuenchError.InvalidRecombinationValue := by
  by_cases h0 : mode = c.BOX
  · rw [quenchStep_box h0]
    apply writeOut_nan
    unfold modelRecomb at h
    rwa [if_pos h0] at h
  · by_cases h1 : mode = c.BIRKS
    · rw [quenchStep_birks h0 h1]
      apply writeOut_nan
      unfold modelRecomb at h
      rwa [if_neg h0, if_pos h1] at h
    · have h2 : mode = c.DATA := by tauto
      rw [quenchStep_data h0 h1 h2]
      apply writeOut_nan
      unfold modelRecomb at h
      rwa [if_neg h0, if_neg h1] at h

/-- Witness for (amended) C8: a NaN `dEdx` under BIRKS gives a NaN `recomb`
and the kernel aborts with `InvalidRecombinationValue`. -/
theorem quenchStep_nan_recomb_error_witness :
    ((2:ℤ) = cW.BOX ∨ (2:ℤ) = cW.BIRKS ∨ (2:ℤ) = cW.DATA) ∧
    (modelRecomb cW 2 sNan).isNaN = true ∧
    quenchStep cW 2 sNan = Except.error QuenchError.InvalidRecombinationValue := by
  have hm : (2:ℤ) = cW.BOX ∨ (2:ℤ) = cW.BIRKS ∨ (2:ℤ) = cW.DATA :=
    Or.inr (Or.inl (by norm_num [cW]))
  have h : (modelRecomb cW 2 sNan).isNaN = true := by
    unfold modelRecomb
    rw [if_neg (by norm_num [cW] : (2:ℤ) ≠ cW.BOX),
      if_pos (by norm_num [cW] : (2:ℤ) = cW.BIRKS)]
    have hd : sNan.dEdx = FP.nan := rfl
    rw [hd]
    unfold birksRecomb
    rw [FP.mul_nan, FP.nan_div, FP.fin_add_nan, FP.div_nan]
    rfl
  exact ⟨hm, h, quenchStep_nan_recomb_error cW 2 sNan hm h⟩

theorem quenchStep_ok_fields {c : Consts} {mode : ℤ} {s s' : Segment}
    (h : quenchStep c mode s = Except.ok s') :
    s'.dEdx = s.dEdx ∧ s'.dE = s.dE ∧ s'.x = s.x ∧ s'.y = s.y ∧ s'.z = s.z ∧
    ((mode = c.BOX ∨ mode = c.BIRKS) → s'.pixel_plane = s.pixel_plane) := by
  by_cases h0 : mode = c.BOX
  · rw [quenchStep_box h0, writeOut_eq_ok] at h
    obtain ⟨-, rfl⟩ := h
    exact ⟨rfl, rfl, rfl, rfl, rfl, fun _ => rfl⟩
  · by_cases h1 : mode = c.BIRKS
    · rw [quenchStep_birks h0 h1, writeOut_eq_ok] at h
      obtain ⟨-, rfl⟩ := h
      exact ⟨rfl, rfl, rfl, rfl, rfl, fun _ => rfl⟩
    · by_cases h2 : mode = c.DATA
      · rw [quenchStep_data h0 h1 h2, writeOut_eq_ok] at h
        obtain ⟨-, rfl⟩ := h
        refine ⟨rfl, rfl, rfl, rfl, rfl, ?_⟩
        rintro (hc | hc)
        · exact absurd hc h0
        · exact absurd hc h1
      · rw [quenchStep_invalid h0 h1 h2] at h
        exact absurd h (by simp)

/-- Claim C9: a non-fatal kernel invocation for index `i` mutates only
segment `i`, and there it writes only the output fields: the inputs `dEdx`,
`dE`, `x`, `y`, `z` are unchanged, `pixel_plane` is unchanged under BOX and
BIRKS, and every other segment of the array is unchanged. -/
theorem quenchAt_frame (c : Consts) (mode : ℤ) (tracks tracks' : List Segment)
    (i : ℕ) (h : quenchAt c mode tracks i = Except.ok tracks') :
    tracks'.length = tracks.length ∧
    (∀ j, j ≠ i → tracks'.get? j = tracks.get? j) ∧
    (∀ s s', tracks.get? i = some s → tracks'.get? i = some s' →
      s'.dEdx = s.dEdx ∧ s'.dE = s.dE ∧ s'.x = s.x ∧ s'.y = s.y ∧ s'.z = s.z ∧
      ((mode = c.BOX ∨ mode = c.BIRKS) → s'.pixel_plane = s.pixel_plane)) := by
  unfold quenchAt at h
  cases hg : tracks.get? i with
  | none =>
    rw [hg] at h
    obtain rfl : tracks = tracks' := by simpa using h
    exact ⟨rfl, fun j _ => rfl, fun s s' hs => absurd hs (by simp [hg])⟩
  | some s0 =>
    rw [hg] at h
    have h2 : Except.map (fun s' => tracks.set i s') (quenchStep c mode s0) =
        Except.ok tracks' := h
    cases hq : quenchStep c mode s0 with
    | error e =>
      rw [hq] at h2
      exact absurd h2 (by simp [Except.map])
    | ok s1 =>
      rw [hq] at h2
      obtain rfl : tracks.set i s1 = tracks' := by simpa [Except.map] using h2
      refine ⟨List.length_set tracks i s1, ?_, ?_⟩
      · intro j hj
        exact List.get?_set_ne s1 tracks (fun he => hj he.symm)
      · intro s s' hs hs'
        obtain rfl : s0 = s := Option.some.inj hs
        have hi : i < tracks.length := by
          by_contra hh
          rw [List.get?_eq_none.mpr (le_of_not_lt hh)] at hg
          exact absurd hg (by simp)
        rw [List.get?_set_eq_of_lt s1 hi] at hs'
        obtain rfl : s1 = s' := Option.some.inj hs'
        exact quenchStep_ok_fields hq

theorem FP.le_fin_bounds {lo hi : ℝ} {w : FP}
    (h1 : FP.fin lo ≤ w) (h2 : w ≤ FP.fin hi) :
    ∃ r, w = FP.fin r ∧ lo ≤ r ∧ r ≤ hi := by
  cases w with
  | nan => exact absurd h1 FP.not_le_nan
  | pinf => exact absurd h2 FP.not_pinf_le_fin
  | ninf => exact absurd h1 FP.not_fin_le_ninf
  | fin r => exact ⟨r, rfl, h1, h2⟩

theorem dataScan_of_none {c : Consts} {s : Segment}
    (hfind : findPlaneAux s.x s.y s.z c.TPC_BORDERS 0 = none) :
    dataScan c s = (c.DEFAULT_PLANE_INDEX, FP.fin 0) := by
  unfold dataScan
  rw [hfind]

theorem dataScan_fst_of_find {c : Consts} {s : Segment} {j : ℕ} {q : Plane}
    (hfind : findPlaneAux s.x s.y s.z c.TPC_BORDERS 0 = some (j, q)) :
    (dataScan c s).1 = (j : ℤ) := by
  unfold dataScan
  rw [hfind]
  by_cases hd : (j : ℤ) = c.DEFAULT_PLANE_INDEX
  · simp [hd]
  · simp [hd]

theorem dataScan_of_find_ne {c : Consts} {s : Segment} {j : ℕ} {q : Plane}
    (hfind : findPlaneAux s.x s.y s.z c.TPC_BORDERS 0 = some (j, q))
    (hd : (j : ℤ) ≠ c.DEFAULT_PLANE_INDEX) :
    dataScan c s = ((j : ℤ),
      FP.exp ((s.z - FP.fin q.z0).abs / FP.fin c.V_DRIFT /
        FP.fin c.ELECTRON_LIFETIME)) := by
  unfold dataScan
  rw [hfind]
  simp [hd]

theorem planeMatch_pW : planeMatch pW (FP.fin 0) (FP.fin 0) (FP.fin 0) := by
  unfold planeMatch pW
  norm_num

theorem quenchStep_cData : quenchStep cData 3 sW = Except.ok outD := by
  have h0 : (3:ℤ) ≠ cData.BOX := by norm_num [cData, cW]
  have h1 : (3:ℤ) ≠ cData.BIRKS := by norm_num [cData, cW]
  have h2 : (3:ℤ) = cData.DATA := by norm_num [cData, cW]
  rw [quenchStep_data h0 h1 h2]
  have hfind : findPlaneAux sW.x sW.y sW.z cData.TPC_BORDERS 0 =
      some (0, pW) := by
    show findPlaneAux sW.x sW.y sW.z (pW :: [pW]) 0 = some (0, pW)
    exact findPlaneAux_cons_pos planeMatch_pW
  have hscan : dataScan cData sW = (((0:ℕ) : ℤ), FP.fin 1) := by
    rw [dataScan_of_find_ne hfind (by norm_num [cData, cW])]
    have hz : (sW.z - FP.fin pW.z0).abs = FP.fin 0 := by
      show (FP.fin 0 - FP.fin (0:ℝ)).abs = FP.fin 0
      rw [FP.fin_sub_fin, FP.abs_fin]
      norm_num
    rw [hz, show cData.V_DRIFT = (1:ℝ) from rfl,
      show cData.ELECTRON_LIFETIME = (1:ℝ) from rfl,
      FP.fin_div_fin one_ne_zero, FP.fin_div_fin one_ne_zero, FP.exp_fin]
    norm_num [Real.exp_zero]
  rw [hscan, writeOut_eq_ok]
  refine ⟨rfl, ?_⟩
  simp only [outD, sW, cData, cW]
  norm_num [FP.fin_div_fin, FP.fin_mul_fin, FP.fin_sub_fin, Segment.mk.injEq]

/-- Claim C4: in DATA mode, a non-fatal evaluation scans the plane table in
order and writes into `pixel_plane` the index of the first plane whose
tolerance-padded box contains `(x, y, z)`: if the plane at index `i` matches,
the selected index `j` satisfies `j ≤ i`, plane `j` matches, and no plane
before `j` matches (so of two overlapping matching boxes the earlier one in
the table wins). -/
theorem quenchStep_data_first_plane (c : Consts) (mode : ℤ) (s s' : Segment)
    (h0 : mode ≠ c.BOX) (h1 : mode ≠ c.BIRKS) (h2 : mode = c.DATA)
    (hok : quenchStep c mode s = Except.ok s')
    (i : ℕ) (p : Plane) (hip : c.TPC_BORDERS.get? i = some p)
    (hm : planeMatch p s.x s.y s.z) :
    ∃ j q, j ≤ i ∧ c.TPC_BORDERS.get? j = some q ∧
      planeMatch q s.x s.y s.z ∧ s'.pixel_plane = (j : ℤ) ∧
      ∀ k r, k < j → c.TPC_BORDERS.get? k = some r →
        ¬ planeMatch r s.x s.y s.z := by
  rw [quenchStep_data h0 h1 h2, writeOut_eq_ok] at hok
  obtain ⟨-, rfl⟩ := hok
  cases hfind : findPlaneAux s.x s.y s.z c.TPC_BORDERS 0 with
  | none =>
    rw [findPlaneAux_eq_none] at hfind
    exact absurd hm (hfind p (List.get?_mem hip))
  | some jq =>
    obtain ⟨j, q⟩ := jq
    obtain ⟨-, hget, hqm, hmin⟩ :=
      findPlaneAux_spec c.TPC_BORDERS 0 j q hfind
    rw [Nat.sub_zero] at hget hmin
    refine ⟨j, q, ?_, hget, hqm, ?_, fun k r hk hkr => hmin k r hk hkr⟩
    · by_contra hji
      exact absurd hm (hmin i p (lt_of_not_le hji) hip)
    · show (dataScan c s).1 = (j : ℤ)
      exact dataScan_fst_of_find hfind

/-- Witness for C4: under `cData` the table holds two identical overlapping
boxes, both containing the origin; with `i = 1` (the later copy) matching,
the kernel still selects the earlier matching index. -/
theorem quenchStep_data_first_plane_witness :
    (3:ℤ) ≠ cData.BOX ∧ (3:ℤ) = cData.DATA ∧
    cData.TPC_BORDERS.get? 1 = some pW ∧
    planeMatch pW sW.x sW.y sW.z ∧
    (∃ j q, j ≤ 1 ∧ cData.TPC_BORDERS.get? j = some q ∧
      planeMatch q sW.x sW.y sW.z ∧ outD.pixel_plane = (j : ℤ) ∧
      ∀ k r, k < j → cData.TPC_BORDERS.get? k = some r →
        ¬ planeMatch r sW.x sW.y sW.z) := by
  have hip : cData.TPC_BORDERS.get? 1 = some pW := rfl
  have hm : planeMatch pW sW.x sW.y sW.z := planeMatch_pW
  refine ⟨by norm_num [cData, cW], by norm_num [cData, cW], hip, hm, ?_⟩
  exact quenchStep_data_first_plane cData 3 sW outD
    (by norm_num [cData, cW]) (by norm_num [cData, cW])
    (by norm_num [cData, cW]) quenchStep_cData 1 pW hip hm

/-- Claim C5: in DATA mode, when no padded plane box contains `(x, y, z)`,
`pixel_plane` ends at the default sentinel, the drift-attenuation computation
is skipped, the surviving fraction is the initial `recomb = 0`, and hence
`n_electrons = 0` and `n_photons = (dE / W_PH) * SCINT_PRESCALE`. -/
theorem quenchStep_data_no_plane (c : Consts) (mode : ℤ) (s : Segment) (e : ℝ)
    (h0 : mode ≠ c.BOX) (h1 : mode ≠ c.BIRKS) (h2 : mode = c.DATA)
    (hno : ∀ p ∈ c.TPC_BORDERS, ¬ planeMatch p s.x s.y s.z)
    (hdE : s.dE = FP.fin e) (hWi : c.W_ION ≠ 0) (hWp : c.W_PH ≠ 0) :
    quenchStep c mode s = Except.ok { s with
      pixel_plane := c.DEFAULT_PLANE_INDEX,
      n_electrons := FP.fin 0,
      n_photons := FP.fin (e / c.W_PH * c.SCINT_PRESCALE) } := by
  rw [quenchStep_data h0 h1 h2]
  have hfind : findPlaneAux s.x s.y s.z c.TPC_BORDERS 0 = none :=
    (findPlaneAux_eq_none _ _).mpr hno
  rw [dataScan_of_none hfind, hdE, writeOut_eq_ok]
  refine ⟨rfl, ?_⟩
  show Segment.mk _ _ _ _ _ _ _ _ = Segment.mk _ _ _ _ _ _ _ _
  simp only [FP.fin_mul_fin, FP.fin_div_fin hWi, FP.fin_div_fin hWp,
    FP.fin_sub_fin, Segment.mk.injEq]
  norm_num

/-- Witness for C5: under `cW` the geometry table is empty, so no plane can
match; the kernel leaves `pixel_plane` at the sentinel `-1` and outputs
`n_electrons = 0`, `n_photons = (dE / W_PH) * SCINT_PRESCALE`. -/
theorem quenchStep_data_no_plane_witness :
    (3:ℤ) ≠ cW.BOX ∧ (3:ℤ) = cW.DATA ∧ cW.W_ION ≠ 0 ∧
    quenchStep cW 3 sW = Except.ok { sW with
      pixel_plane := cW.DEFAULT_PLANE_INDEX,
      n_electrons := FP.fin 0,
      n_photons := FP.fin (1 / cW.W_PH * cW.SCINT_PRESCALE) } := by
  refine ⟨by norm_num [cW], by norm_num [cW], by norm_num [cW], ?_⟩
  exact quenchStep_data_no_plane cW 3 sW 1
    (by norm_num [cW]) (by norm_num [cW]) (by norm_num [cW])
    (by intro p hp; exact absurd hp (by simp [cW]))
    rfl (by norm_num [cW]) (by norm_num [cW])

/-- Claim C6: in DATA mode, when a plane was selected (`pixel_plane` differs
from the sentinel), the branch computed
`recomb = exp(drift_time / ELECTRON_LIFETIME)` with
`drift_time = drift_distance / V_DRIFT` and
`drift_distance = |z - z_anode|`, the anode z being the first z-bound of the
selected plane's table entry, and this `recomb` feeds `n_electrons`. -/
theorem quenchStep_data_drift (c : Consts) (mode : ℤ) (s s' : Segment)
    (h0 : mode ≠ c.BOX) (h1 : mode ≠ c.BIRKS) (h2 : mode = c.DATA)
    (hok : quenchStep c mode s = Except.ok s')
    (hsel : s'.pixel_plane ≠ c.DEFAULT_PLANE_INDEX) :
    ∃ i p, c.TPC_BORDERS.get? i = some p ∧ s'.pixel_plane = (i : ℤ) ∧
      (dataScan c s).2 =
        FP.exp ((s.z - FP.fin p.z0).abs / FP.fin c.V_DRIFT /
          FP.fin c.ELECTRON_LIFETIME) ∧
      s'.n_electrons = (dataScan c s).2 * s.dE / FP.fin c.W_ION := by
  rw [quenchStep_data h0 h1 h2, writeOut_eq_ok] at hok
  obtain ⟨-, rfl⟩ := hok
  have hsel' : (dataScan c s).1 ≠ c.DEFAULT_PLANE_INDEX := hsel
  cases hfind : findPlaneAux s.x s.y s.z c.TPC_BORDERS 0 with
  | none =>
    rw [dataScan_of_none hfind] at hsel'
    exact absurd rfl hsel'
  | some jq =>
    obtain ⟨j, q⟩ := jq
    obtain ⟨-, hget, -, -⟩ := findPlaneAux_spec c.TPC_BORDERS 0 j q hfind
    rw [Nat.sub_zero] at hget
    have hd : (j : ℤ) ≠ c.DEFAULT_PLANE_INDEX := fun hc =>
      hsel' ((dataScan_fst_of_find hfind).trans hc)
    refine ⟨j, q, hget, dataScan_fst_of_find hfind, ?_, rfl⟩
    rw [dataScan_of_find_ne hfind hd]

/-- Witness for C6: the concrete DATA evaluation under `cData` selects plane
`0` (`≠ -1`), and the drift formulas hold for it. -/
theorem quenchStep_data_drift_witness :
    quenchStep cData 3 sW = Except.ok outD ∧
    outD.pixel_plane ≠ cData.DEFAULT_PLANE_INDEX ∧
    (∃ i p, cData.TPC_BORDERS.get? i = some p ∧
      outD.pixel_plane = (i : ℤ) ∧
      (dataScan cData sW).2 =
        FP.exp ((sW.z - FP.fin p.z0).abs / FP.fin cData.V_DRIFT /
          FP.fin cData.ELECTRON_LIFETIME) ∧
      outD.n_electrons = (dataScan cData sW).2 * sW.dE / FP.fin cData.W_ION) := by
  have hok : quenchStep cData 3 sW = Except.ok outD := quenchStep_cData
  have hsel : outD.pixel_plane ≠ cData.DEFAULT_PLANE_INDEX := by
    show (0:ℤ) ≠ -1
    decide
  exact ⟨hok, hsel, quenchStep_data_drift cData 3 sW outD
    (by norm_num [cData, cW]) (by norm_num [cData, cW])
    (by norm_num [cData, cW]) hok hsel⟩

/-- Claim C10: in DATA mode with a plane selected and positive `V_DRIFT`,
`ELECTRON_LIFETIME` (and `W_ION`), the survival fraction satisfies
`recomb ≥ 1` — the exponent is non-negative and not negated — so
`n_electrons ≥ dE / W_ION` for finite `dE ≥ 0`: the DATA branch only
amplifies relative to full survival. -/
theorem quenchStep_data_amplifies (c : Consts) (mode : ℤ) (s s' : Segment)
    (h0 : mode ≠ c.BOX) (h1 : mode ≠ c.BIRKS) (h2 : mode = c.DATA)
    (hok : quenchStep c mode s = Except.ok s')
    (hsel : s'.pixel_plane ≠ c.DEFAULT_PLANE_INDEX)
    (hV : 0 < c.V_DRIFT) (hL : 0 < c.ELECTRON_LIFETIME) (hW : 0 < c.W_ION)
    (e : ℝ) (hdE : s.dE = FP.fin e) (he : 0 ≤ e) :
    FP.fin 1 ≤ (dataScan c s).2 ∧
    FP.fin (e / c.W_ION) ≤ s'.n_electrons := by
  rw [quenchStep_data h0 h1 h2, writeOut_eq_ok] at hok
  obtain ⟨-, rfl⟩ := hok
  have hsel' : (dataScan c s).1 ≠ c.DEFAULT_PLANE_INDEX := hsel
  cases hfind : findPlaneAux s.x s.y s.z c.TPC_BORDERS 0 with
  | none =>
    rw [dataScan_of_none hfind] at hsel'
    exact absurd rfl hsel'
  | some jq =>
    obtain ⟨j, q⟩ := jq
    obtain ⟨-, -, hqm, -⟩ := findPlaneAux_spec c.TPC_BORDERS 0 j q hfind
    have hd : (j : ℤ) ≠ c.DEFAULT_PLANE_INDEX := fun hc =>
      hsel' ((dataScan_fst_of_find hfind).trans hc)
    obtain ⟨zr, hz, -, -⟩ := FP.le_fin_bounds hqm.2.2.1 hqm.2.2.2
    have hrec : (dataScan c s).2 =
        FP.fin (Real.exp (|zr - q.z0| / c.V_DRIFT / c.ELECTRON_LIFETIME)) := by
      rw [dataScan_of_find_ne hfind hd]
      show FP.exp ((s.z - FP.fin q.z0).abs / FP.fin c.V_DRIFT /
        FP.fin c.ELECTRON_LIFETIME) = _
      rw [hz, FP.fin_sub_fin, FP.abs_fin, FP.fin_div_fin (ne_of_gt hV),
        FP.fin_div_fin (ne_of_gt hL), FP.exp_fin]
    have ht : 0 ≤ |zr - q.z0| / c.V_DRIFT / c.ELECTRON_LIFETIME :=
      div_nonneg (div_nonneg (abs_nonneg _) hV.le) hL.le
    have h1exp :
        1 ≤ Real.exp (|zr - q.z0| / c.V_DRIFT / c.ELECTRON_LIFETIME) := by
      calc (1:ℝ) = Real.exp 0 := Real.exp_zero.symm
        _ ≤ _ := Real.exp_le_exp.mpr ht
    constructor
    · rw [hrec, FP.fin_le_fin]
      exact h1exp
    · show FP.fin (e / c.W_ION) ≤ (dataScan c s).2 * s.dE / FP.fin c.W_ION
      rw [hrec, hdE, FP.fin_mul_fin, FP.fin_div_fin (ne_of_gt hW),
        FP.fin_le_fin]
      exact (div_le_div_right hW).mpr (le_mul_of_one_le_left he h1exp)

/-- Witness for C10: the concrete DATA evaluation under `cData` has
`recomb = 1 ≥ 1` and `n_electrons = 1 ≥ dE / W_ION = 1`. -/
theorem quenchStep_data_amplifies_witness :
    0 < cData.V_DRIFT ∧ 0 < cData.ELECTRON_LIFETIME ∧ 0 < cData.W_ION ∧
    (FP.fin 1 ≤ (dataScan cData sW).2 ∧
      FP.fin (1 / cData.W_ION) ≤ outD.n_electrons) := by
  have hok : quenchStep cData 3 sW = Except.ok outD := quenchStep_cData
  have hsel : outD.pixel_plane ≠ cData.DEFAULT_PLANE_INDEX := by
    show (0:ℤ) ≠ -1
    decide
  refine ⟨by norm_num [cData, cW], by norm_num [cData, cW],
    by norm_num [cData, cW], ?_⟩
  exact quenchStep_data_amplifies cData 3 sW outD
    (by norm_num [cData, cW]) (by norm_num [cData, cW])
    (by norm_num [cData, cW]) hok hsel
    (by norm_num [cData, cW]) (by norm_num [cData, cW])
    (by norm_num [cData, cW]) 1 rfl (by norm_num)

/-- Witness for C9: the concrete BIRKS evaluation of lane `0` on a
two-segment batch leaves segment `1` untouched. -/
theorem quenchAt_frame_witness :
    quenchAt cW 2 [sW, sW] 0 = Except.ok [outW, sW] ∧
    [outW, sW].length = [sW, sW].length ∧
    (∀ j, j ≠ 0 → ([outW, sW] : List Segment).get? j = [sW, sW].get? j) := by
  have h : quenchAt cW 2 [sW, sW] 0 = Except.ok [outW, sW] := by
    show Except.map (fun s' => List.set [sW, sW] 0 s') (quenchStep cW 2 sW) =
      Except.ok [outW, sW]
    rw [quenchStep_cW_birks]
    rfl
  have hframe := quenchAt_frame cW 2 [sW, sW] [outW, sW] 0 h
  exact ⟨h, hframe.1, hframe.2.1⟩
